import Mathlib

/-!
# VoiceCallHandlerDBusAdapter

A shallow embedding of `src/lib/src/dbus/voicecallhandlerdbusadapter.cpp`.

The adapter is a thin boundary object: it stores a pointer to one
`AbstractVoiceCallHandler`, connects seven of the handler's signals in its
constructor, and forwards every getter and command to the handler.

* The handler is an abstract class; it is represented by `HandlerIface`, a
  record of its accessors and command slots over an arbitrary state type.
* Objects live at addresses (`Nat`); `World.heap` gives the handler object
  stored at each address.
* Signal emission is synchronous (direct connections inside one thread): a
  receiver that reads the handler sees the state the handler had when it
  emitted.
* Two ghost logs, `World.calls` and `World.emitted`, record the command slots
  invoked on handlers and the signals emitted by the adapter.
* The `TRACE` logging macro and the destructor (`delete d`) have no counterpart.
-/

namespace VoiceCall

/-! ## Qt value types -/

/-- Qt date-time value; `none` stands for the null (default constructed) value. -/
structure QDateTime where
  utcMSecs : Option Int
  deriving DecidableEq, Repr

/-- The `QVariant` constructors used by `getProperties`. -/
inductive QVariant where
  | string (s : String)
  | int (i : Int)
  | longLong (i : Int)
  | bool (b : Bool)
  deriving DecidableEq, Repr

/-- The type `QVariantMap`, i.e. `QMap<QString, QVariant>`: entries kept in ascending key order,
at most one entry per key. -/
abbrev QVariantMap := List (String × QVariant)

/-- The UTF-16 code units of a character. -/
def utf16 (c : Char) : List Nat :=
  if c.toNat < 0x10000 then [c.toNat]
  else [0xD800 + (c.toNat - 0x10000) / 0x400, 0xDC00 + (c.toNat - 0x10000) % 0x400]

/-- Lexicographic "less than" on code-unit sequences. -/
def unitsLess : List Nat → List Nat → Bool
  | _, [] => false
  | [], _ :: _ => true
  | a :: as, b :: bs => if a < b then true else if b < a then false else unitsLess as bs

/-- The `operator<` of `QString`: comparison of the UTF-16 code units. -/
def qLess (a b : String) : Bool :=
  unitsLess (a.toList.flatMap utf16) (b.toList.flatMap utf16)

/-- The method `QMap::insert`: replaces the value of an existing key, otherwise adds the entry at its
place in key order. -/
def QVariantMap.insert : QVariantMap → String → QVariant → QVariantMap
  | [], k, v => [(k, v)]
  | (k', v') :: rest, k, v =>
    if qLess k k' then (k, v) :: (k', v') :: rest
    else if k = k' then (k, v) :: rest
    else (k', v') :: QVariantMap.insert rest k v

/-- The method `QMap::keys`. -/
def QVariantMap.keys (m : QVariantMap) : List String := m.map Prod.fst

/-- The method `QMap::value` restricted to present keys (`none` when the key is absent). -/
def QVariantMap.value (m : QVariantMap) (k : String) : Option QVariant :=
  match m with
  | [] => none
  | (k', v') :: rest => if k = k' then some v' else QVariantMap.value rest k

/-! ## The handler interface -/

/-- Modelled from the spec: the call states of `AbstractVoiceCallHandler::VoiceCallStatus`
(declared in a header that is not part of the source file), as listed in §4.1. -/
inductive VoiceCallStatus where
  | Dialing | Alerting | Active | Held | Disconnected
  deriving DecidableEq, Repr

/-- Names of the seven handler signals connected by the adapter's constructor. -/
inductive SignalName where
  | statusChanged | lineIdChanged | startedAtChanged | durationChanged
  | emergencyChanged | multipartyChanged | forwardedChanged
  deriving DecidableEq, Repr

/-- A signal emitted by an `AbstractVoiceCallHandler`, with its argument
(signatures as written in the `SIGNAL(...)` strings of the constructor). -/
inductive HandlerSignal where
  | statusChanged (s : VoiceCallStatus)
  | lineIdChanged (lineId : String)
  | startedAtChanged (t : QDateTime)
  | durationChanged (n : Int)
  | emergencyChanged (b : Bool)
  | multipartyChanged (b : Bool)
  | forwardedChanged (b : Bool)
  deriving DecidableEq, Repr

/-- A signal emitted by the adapter. `statusChanged` has the two arguments passed in
`onStatusChanged`; the others have the signatures written in the constructor. -/
inductive AdapterSignal where
  | statusChanged (status : Int) (statusText : String)
  | lineIdChanged (lineId : String)
  | startedAtChanged (t : QDateTime)
  | durationChanged (n : Int)
  | emergencyChanged (b : Bool)
  | multipartyChanged (b : Bool)
  | forwardedChanged (b : Bool)
  deriving DecidableEq, Repr

/-- An argument value carried by a signal. -/
inductive Arg where
  | status (s : VoiceCallStatus)
  | str (s : String)
  | dateTime (t : QDateTime)
  | int (i : Int)
  | bool (b : Bool)
  deriving DecidableEq, Repr

def HandlerSignal.name : HandlerSignal → SignalName
  | .statusChanged _ => .statusChanged
  | .lineIdChanged _ => .lineIdChanged
  | .startedAtChanged _ => .startedAtChanged
  | .durationChanged _ => .durationChanged
  | .emergencyChanged _ => .emergencyChanged
  | .multipartyChanged _ => .multipartyChanged
  | .forwardedChanged _ => .forwardedChanged

def HandlerSignal.args : HandlerSignal → List Arg
  | .statusChanged s => [.status s]
  | .lineIdChanged s => [.str s]
  | .startedAtChanged t => [.dateTime t]
  | .durationChanged n => [.int n]
  | .emergencyChanged b => [.bool b]
  | .multipartyChanged b => [.bool b]
  | .forwardedChanged b => [.bool b]

def AdapterSignal.name : AdapterSignal → SignalName
  | .statusChanged _ _ => .statusChanged
  | .lineIdChanged _ => .lineIdChanged
  | .startedAtChanged _ => .startedAtChanged
  | .durationChanged _ => .durationChanged
  | .emergencyChanged _ => .emergencyChanged
  | .multipartyChanged _ => .multipartyChanged
  | .forwardedChanged _ => .forwardedChanged

def AdapterSignal.args : AdapterSignal → List Arg
  | .statusChanged i t => [.int i, .str t]
  | .lineIdChanged s => [.str s]
  | .startedAtChanged t => [.dateTime t]
  | .durationChanged n => [.int n]
  | .emergencyChanged b => [.bool b]
  | .multipartyChanged b => [.bool b]
  | .forwardedChanged b => [.bool b]

/-- What running a handler slot does: the signals the handler emits, each paired with the
handler state at the moment of emission, and the handler state when the slot returns. -/
structure Activity (H : Type) where
  emissions : List (HandlerSignal × H)
  final : H

/-- The members of `AbstractVoiceCallHandler` the adapter uses, over handler states `H`.
Accessors are observations of the state; the command slots return nothing (the adapter
discards any result) and are described by the `Activity` they cause. -/
structure HandlerIface (H : Type) where
  /-- `provider()->providerId()` -/
  providerId : H → String
  handlerId : H → String
  lineId : H → String
  startedAt : H → QDateTime
  duration : H → Int
  isIncoming : H → Bool
  isMultiparty : H → Bool
  isForwarded : H → Bool
  isEmergency : H → Bool
  status : H → VoiceCallStatus
  statusText : H → String
  answer : H → Activity H
  hangup : H → Activity H
  hold : Bool → H → Activity H
  deflect : String → H → Activity H
  sendDtmf : String → H → Activity H

/-- Declarations used by the adapter whose definitions are outside the source file:
the numeric values of the status enumerators (the `(int)` cast in `status()`) and
`QDateTime::toMSecsSinceEpoch`. -/
structure Decls where
  statusToInt : VoiceCallStatus → Int
  toMSecsSinceEpoch : QDateTime → Int

/-! ## Objects, connections and the ghost logs -/

/-- The class `VoiceCallHandlerDBusAdapterPrivate`: the back pointer and the handler pointer. -/
structure VoiceCallHandlerDBusAdapterPrivate where
  q_ptr : Nat
  handler : Nat
  deriving DecidableEq, Repr

/-- The receiving end of a connection made by the constructor: the adapter's slot
`onStatusChanged()` or one of the adapter's own signals. -/
inductive Receiver where
  | slotOnStatusChanged
  | signal (n : SignalName)
  deriving DecidableEq, Repr

/-- One `QObject::connect(sender, SIGNAL(signal), receiver)` record. -/
structure Connection where
  sender : Nat
  signal : SignalName
  receiver : Receiver
  deriving DecidableEq, Repr

/-- A command slot invoked on a handler. -/
inductive HandlerCall where
  | answer
  | hangup
  | hold (enable : Bool)
  | deflect (target : String)
  | sendDtmf (tones : String)
  deriving DecidableEq, Repr

/-- One adapter together with the handler objects around it. `calls` records every command
slot invoked on a handler (with the handler's address), `emitted` every signal the adapter
emitted, both oldest first. -/
structure World (H : Type) where
  d : VoiceCallHandlerDBusAdapterPrivate
  connections : List Connection
  heap : Nat → H
  calls : List (Nat × HandlerCall)
  emitted : List AdapterSignal

/-- The seven `QObject::connect` calls of the constructor, in source order; the sender of
each is `d->handler`. -/
def connectAll (handler : Nat) : List Connection :=
  [ ⟨handler, .statusChanged, .slotOnStatusChanged⟩,
    ⟨handler, .lineIdChanged, .signal .lineIdChanged⟩,
    ⟨handler, .startedAtChanged, .signal .startedAtChanged⟩,
    ⟨handler, .durationChanged, .signal .durationChanged⟩,
    ⟨handler, .emergencyChanged, .signal .emergencyChanged⟩,
    ⟨handler, .multipartyChanged, .signal .multipartyChanged⟩,
    ⟨handler, .forwardedChanged, .signal .forwardedChanged⟩ ]

/-- The constructor: stores `this` and `handler` in the private object and makes the seven
connections on `d->handler`. -/
def VoiceCallHandlerDBusAdapter.new {H : Type} (q handler : Nat) (heap : Nat → H) : World H :=
  let d : VoiceCallHandlerDBusAdapterPrivate := { q_ptr := q, handler := handler }
  { d := d
    connections := connectAll d.handler
    heap := heap
    calls := []
    emitted := [] }

/-! ## Getters -/

section Adapter
variable {H : Type} (I : HandlerIface H) (D : Decls)

def providerId (w : World H) : String := I.providerId (w.heap w.d.handler)

def handlerId (w : World H) : String := I.handlerId (w.heap w.d.handler)

def lineId (w : World H) : String := I.lineId (w.heap w.d.handler)

def startedAt (w : World H) : QDateTime := I.startedAt (w.heap w.d.handler)

def duration (w : World H) : Int := I.duration (w.heap w.d.handler)

def isIncoming (w : World H) : Bool := I.isIncoming (w.heap w.d.handler)

def isMultiparty (w : World H) : Bool := I.isMultiparty (w.heap w.d.handler)

def isForwarded (w : World H) : Bool := I.isForwarded (w.heap w.d.handler)

def isEmergency (w : World H) : Bool := I.isEmergency (w.heap w.d.handler)

def status (w : World H) : Int := D.statusToInt (I.status (w.heap w.d.handler))

def statusText (w : World H) : String := I.statusText (w.heap w.d.handler)

/-! ## Signal delivery -/

/-- The slot `onStatusChanged()`: `emit statusChanged(status(), statusText())`. -/
def onStatusChanged (w : World H) : World H :=
  { w with emitted := w.emitted ++ [AdapterSignal.statusChanged (status I D w) (statusText I w)] }

/-- A signal-to-signal connection: the adapter signal named `n` is emitted with the
arguments of the incoming signal (`none` when the argument types do not fit `n`). -/
def reemit : SignalName → List Arg → Option AdapterSignal
  | .lineIdChanged, [.str s] => some (.lineIdChanged s)
  | .startedAtChanged, [.dateTime t] => some (.startedAtChanged t)
  | .durationChanged, [.int n] => some (.durationChanged n)
  | .emergencyChanged, [.bool b] => some (.emergencyChanged b)
  | .multipartyChanged, [.bool b] => some (.multipartyChanged b)
  | .forwardedChanged, [.bool b] => some (.forwardedChanged b)
  | _, _ => none

/-- A connection reacting to signal `s` emitted by the object at `sender`. -/
def activate (c : Connection) (sender : Nat) (s : HandlerSignal) (w : World H) : World H :=
  if c.sender = sender ∧ c.signal = s.name then
    match c.receiver with
    | .slotOnStatusChanged => onStatusChanged I D w
    | .signal n =>
      match reemit n s.args with
      | some a => { w with emitted := w.emitted ++ [a] }
      | none => w
  else w

/-- The handler at `sender`, being in state `e.2`, emits `e.1`: every connection is
activated in the order the connections were made. -/
def emitFrom (sender : Nat) (w : World H) (e : HandlerSignal × H) : World H :=
  let w1 : World H := { w with heap := Function.update w.heap sender e.2 }
  w1.connections.foldl (fun acc c => activate I D c sender e.1 acc) w1

/-- The handler at `p` runs: it emits its signals one after the other and ends in
`act.final`. -/
def handlerRuns (p : Nat) (act : Activity H) (w : World H) : World H :=
  let w1 := act.emissions.foldl (emitFrom I D p) w
  { w1 with heap := Function.update w1.heap p act.final }

/-- Ghost step: record that command slot `c` is invoked on the handler at `p`. -/
def recordCall (p : Nat) (c : HandlerCall) (w : World H) : World H :=
  { w with calls := w.calls ++ [(p, c)] }

/-! ## Commands -/

/-- Method `answer()`: `d->handler->answer(); return true;` -/
def answer (w : World H) : World H × Bool :=
  let p := w.d.handler
  (handlerRuns I D p (I.answer (w.heap p)) (recordCall p .answer w), true)

/-- Method `hangup()`: `d->handler->hangup(); return true;` -/
def hangup (w : World H) : World H × Bool :=
  let p := w.d.handler
  (handlerRuns I D p (I.hangup (w.heap p)) (recordCall p .hangup w), true)

/-- Method `hold(bool on)`: `d->handler->hold(on); return true;` -/
def hold (enable : Bool) (w : World H) : World H × Bool :=
  let p := w.d.handler
  (handlerRuns I D p (I.hold enable (w.heap p)) (recordCall p (.hold enable) w), true)

/-- Method `deflect(target)`: `d->handler->deflect(target); return true;` -/
def deflect (target : String) (w : World H) : World H × Bool :=
  let p := w.d.handler
  (handlerRuns I D p (I.deflect target (w.heap p)) (recordCall p (.deflect target) w), true)

/-- Method `sendDtmf(tones)`: `d->handler->sendDtmf(tones);` (returns `void`). -/
def sendDtmf (tones : String) (w : World H) : World H × Unit :=
  let p := w.d.handler
  (handlerRuns I D p (I.sendDtmf tones (w.heap p)) (recordCall p (.sendDtmf tones) w), ())

/-- Method `getProperties()`: eleven `insert`s into an empty map, in source order. -/
def getProperties (w : World H) : World H × QVariantMap :=
  let props : QVariantMap := []
  let props := props.insert "handlerId" (.string (handlerId I w))
  let props := props.insert "providerId" (.string (providerId I w))
  let props := props.insert "status" (.int (status I D w))
  let props := props.insert "statusText" (.string (statusText I w))
  let props := props.insert "lineId" (.string (lineId I w))
  let props := props.insert "startedAt" (.longLong (D.toMSecsSinceEpoch (startedAt I w)))
  let props := props.insert "duration" (.int (duration I w))
  let props := props.insert "isIncoming" (.bool (isIncoming I w))
  let props := props.insert "isEmergency" (.bool (isEmergency I w))
  let props := props.insert "isMultiparty" (.bool (isMultiparty I w))
  let props := props.insert "isForwarded" (.bool (isForwarded I w))
  (w, props)

end Adapter

/-! ## Operation sequences -/

/-- The adapter's getters. -/
inductive Getter where
  | providerId | handlerId | lineId | startedAt | duration | isIncoming
  | isMultiparty | isForwarded | isEmergency | status | statusText
  deriving DecidableEq, Repr

/-- Something that happens to the adapter: one of its methods is called, or (last case) the
handler at some address runs on its own, e.g. on a provider event. -/
inductive Op (H : Type) where
  | answer
  | hangup
  | hold (enable : Bool)
  | deflect (target : String)
  | sendDtmf (tones : String)
  | getProperties
  | onStatusChanged
  | get (g : Getter)
  | handlerActivity (p : Nat) (act : Activity H)

/-- Whether the operation is a method of the adapter. -/
def Op.isAdapterMethod {H : Type} : Op H → Bool
  | .handlerActivity _ _ => false
  | _ => true

section Run
variable {H : Type} (I : HandlerIface H) (D : Decls)

/-- The world after one operation (getters are `const` and return a value only). -/
def step (w : World H) : Op H → World H
  | .answer => (answer I D w).1
  | .hangup => (hangup I D w).1
  | .hold b => (hold I D b w).1
  | .deflect t => (deflect I D t w).1
  | .sendDtmf t => (sendDtmf I D t w).1
  | .getProperties => (getProperties I D w).1
  | .onStatusChanged => onStatusChanged I D w
  | .get _ => w
  | .handlerActivity p act => handlerRuns I D p act w

/-- The world after a sequence of operations. -/
def run (w : World H) (ops : List (Op H)) : World H := ops.foldl (step I D) w

/-- The adapter signal corresponding to a handler emission, as the boundary is meant to
mirror it: `statusChanged` carries the handler's status (as an integer) and status text at
the moment of emission, every other signal carries the handler signal's own argument. -/
def mirror (e : HandlerSignal × H) : AdapterSignal :=
  match e.1 with
  | .statusChanged _ => .statusChanged (D.statusToInt (I.status e.2)) (I.statusText e.2)
  | .lineIdChanged s => .lineIdChanged s
  | .startedAtChanged t => .startedAtChanged t
  | .durationChanged n => .durationChanged n
  | .emergencyChanged b => .emergencyChanged b
  | .multipartyChanged b => .multipartyChanged b
  | .forwardedChanged b => .forwardedChanged b

/-- The world reached when an adapter is constructed (at address `q`) for the handler at
address `p` and the operations `ops` then happen in order. -/
def adapterAfter (q p : Nat) (heap : Nat → H) (ops : List (Op H)) : World H :=
  run I D (VoiceCallHandlerDBusAdapter.new q p heap) ops

end Run

/-! ## A concrete handler -/

/-- Modelled from the spec: the call session of §3, standing for a concrete subclass of
`AbstractVoiceCallHandler` (none is part of the source file). It holds the attribute values
listed in §3. -/
structure CallSession where
  handlerId : String
  providerId : String
  lineId : String
  status : VoiceCallStatus
  startedAt : QDateTime
  duration : Int
  isIncoming : Bool
  isEmergency : Bool
  isMultiparty : Bool
  isForwarded : Bool
  deriving DecidableEq, Repr

/-- Modelled from the spec: `statusText()` of §4.1, the fixed symbolic name of each state
(the handler's implementation is not part of the source file). -/
def CallSession.statusText (s : CallSession) : String :=
  match s.status with
  | .Dialing => "Dialing"
  | .Alerting => "Alerting"
  | .Active => "Active"
  | .Held => "Held"
  | .Disconnected => "Disconnected"

/-- Modelled from the spec: the command slots of a call session as seen from the adapter
(§4.2, the handler's implementation is not part of the source file): a command is handed to
the provider and changes no local state; status changes arrive later as provider events. -/
def CallSession.command (s : CallSession) : Activity CallSession :=
  { emissions := [], final := s }

/-- The call session as an implementation of the handler interface. -/
def CallSession.iface : HandlerIface CallSession where
  providerId := CallSession.providerId
  handlerId := CallSession.handlerId
  lineId := CallSession.lineId
  startedAt := CallSession.startedAt
  duration := CallSession.duration
  isIncoming := CallSession.isIncoming
  isMultiparty := CallSession.isMultiparty
  isForwarded := CallSession.isForwarded
  isEmergency := CallSession.isEmergency
  status := CallSession.status
  statusText := CallSession.statusText
  answer := CallSession.command
  hangup := CallSession.command
  hold := fun _ => CallSession.command
  deflect := fun _ => CallSession.command
  sendDtmf := fun _ => CallSession.command

/-- An instance of `Decls` for evaluating examples: enumerators numbered in the order of
§4.1 starting at 0, and a null date-time converted to 0. -/
def exampleDecls : Decls where
  statusToInt := fun s =>
    match s with
    | .Dialing => 0
    | .Alerting => 1
    | .Active => 2
    | .Held => 3
    | .Disconnected => 4
  toMSecsSinceEpoch := fun t => t.utcMSecs.getD 0

/-- An outgoing call that is active. -/
def activeOutgoing : CallSession :=
  { handlerId := "call-1", providerId := "provider-1", lineId := "+15551234",
    status := .Active, startedAt := ⟨some 1700000000000⟩, duration := 12,
    isIncoming := false, isEmergency := false, isMultiparty := false, isForwarded := false }

/-- An incoming call that is ringing. -/
def alertingIncoming : CallSession :=
  { activeOutgoing with status := .Alerting, startedAt := ⟨none⟩, duration := 0,
                        isIncoming := true }

/-- The ringing incoming call once it has become active. -/
def answeredCall : CallSession :=
  { alertingIncoming with status := .Active, startedAt := ⟨some 1700000000000⟩ }

/-- A call on hold. -/
def heldCall : CallSession := { activeOutgoing with status := .Held }

/-- An adapter (at address 1) constructed for the handler at address 2, all handler objects
being in state `s`. -/
def adapterFor (s : CallSession) : World CallSession :=
  VoiceCallHandlerDBusAdapter.new 1 2 (fun _ => s)

/-- The spec's DTMF alphabet check (§4.2): non-empty and every character in
`0-9`, `*`, `#`, `A-D`. -/
def specValidTones (tones : String) : Bool :=
  !tones.toList.isEmpty && tones.toList.all (fun c => "0123456789*#ABCD".toList.contains c)

/-! ## Frame lemmas -/

section Frame
variable {H : Type} (I : HandlerIface H) (D : Decls)

theorem activate_frame (c : Connection) (p : Nat) (s : HandlerSignal) (w : World H) :
    (activate I D c p s w).d = w.d ∧ (activate I D c p s w).connections = w.connections ∧
    (activate I D c p s w).heap = w.heap ∧ (activate I D c p s w).calls = w.calls := by
  unfold activate
  split
  · split
    · simp [onStatusChanged]
    · split <;> simp
  · simp

theorem foldl_activate_frame (p : Nat) (s : HandlerSignal) (cs : List Connection) (w : World H) :
    (cs.foldl (fun acc c => activate I D c p s acc) w).d = w.d ∧
    (cs.foldl (fun acc c => activate I D c p s acc) w).connections = w.connections ∧
    (cs.foldl (fun acc c => activate I D c p s acc) w).heap = w.heap ∧
    (cs.foldl (fun acc c => activate I D c p s acc) w).calls = w.calls := by
  induction cs generalizing w with
  | nil => simp
  | cons c cs ih =>
    obtain ⟨h1, h2, h3, h4⟩ := activate_frame I D c p s w
    obtain ⟨k1, k2, k3, k4⟩ := ih (activate I D c p s w)
    simp only [List.foldl_cons]
    exact ⟨k1.trans h1, k2.trans h2, k3.trans h3, k4.trans h4⟩

theorem emitFrom_frame (p : Nat) (w : World H) (e : HandlerSignal × H) :
    (emitFrom I D p w e).d = w.d ∧ (emitFrom I D p w e).connections = w.connections ∧
    (emitFrom I D p w e).heap = Function.update w.heap p e.2 ∧
    (emitFrom I D p w e).calls = w.calls := by
  unfold emitFrom
  exact foldl_activate_frame I D p e.1 _ _

theorem foldl_emitFrom_frame (p : Nat) (es : List (HandlerSignal × H)) (w : World H) (x : H) :
    (es.foldl (emitFrom I D p) w).d = w.d ∧
    (es.foldl (emitFrom I D p) w).connections = w.connections ∧
    Function.update (es.foldl (emitFrom I D p) w).heap p x = Function.update w.heap p x ∧
    (es.foldl (emitFrom I D p) w).calls = w.calls := by
  induction es generalizing w with
  | nil => simp
  | cons e es ih =>
    obtain ⟨h1, h2, h3, h4⟩ := emitFrom_frame I D p w e
    obtain ⟨k1, k2, k3, k4⟩ := ih (emitFrom I D p w e)
    simp only [List.foldl_cons]
    refine ⟨k1.trans h1, k2.trans h2, ?_, k4.trans h4⟩
    rw [k3, h3, Function.update_idem]

theorem handlerRuns_frame (p : Nat) (act : Activity H) (w : World H) :
    (handlerRuns I D p act w).d = w.d ∧
    (handlerRuns I D p act w).connections = w.connections ∧
    (handlerRuns I D p act w).heap = Function.update w.heap p act.final ∧
    (handlerRuns I D p act w).calls = w.calls := by
  obtain ⟨h1, h2, h3, h4⟩ := foldl_emitFrom_frame I D p act.emissions w act.final
  exact ⟨h1, h2, h3, h4⟩

/-- On the connections made by the constructor, one emission of the bound handler makes the
adapter emit exactly the mirrored signal. -/
theorem emitFrom_emitted (w : World H) (e : HandlerSignal × H)
    (hc : w.connections = connectAll w.d.handler) :
    (emitFrom I D w.d.handler w e).emitted = w.emitted ++ [mirror I D e] := by
  obtain ⟨s, h⟩ := e
  unfold emitFrom
  simp only [hc, connectAll]
  cases s <;>
    simp [activate, onStatusChanged, reemit, mirror, status, statusText,
      HandlerSignal.name, HandlerSignal.args]

/-- An emission of any other object reaches none of the adapter's connections. -/
theorem emitFrom_emitted_other (p : Nat) (w : World H) (e : HandlerSignal × H)
    (hc : w.connections = connectAll w.d.handler) (hp : p ≠ w.d.handler) :
    (emitFrom I D p w e).emitted = w.emitted := by
  unfold emitFrom
  simp only [hc, connectAll]
  simp [activate, Ne.symm hp]

theorem handlerRuns_emitted (act : Activity H) (w : World H)
    (hc : w.connections = connectAll w.d.handler) :
    (handlerRuns I D w.d.handler act w).emitted = w.emitted ++ act.emissions.map (mirror I D) := by
  obtain ⟨es, x⟩ := act
  show (es.foldl (emitFrom I D w.d.handler) w).emitted = w.emitted ++ es.map (mirror I D)
  generalize hp : w.d.handler = p
  induction es generalizing w with
  | nil => simp
  | cons e es ih =>
    subst hp
    obtain ⟨h1, h2, -, -⟩ := emitFrom_frame I D w.d.handler w e
    have := ih (emitFrom I D w.d.handler w e) (by rw [h2, h1, hc]) (by rw [h1])
    simp only [List.foldl_cons, List.map_cons]
    rw [this, emitFrom_emitted I D w e hc]
    simp

theorem handlerRuns_emitted_other (p : Nat) (act : Activity H) (w : World H)
    (hc : w.connections = connectAll w.d.handler) (hp : p ≠ w.d.handler) :
    (handlerRuns I D p act w).emitted = w.emitted := by
  obtain ⟨es, x⟩ := act
  show (es.foldl (emitFrom I D p) w).emitted = w.emitted
  induction es generalizing w with
  | nil => simp
  | cons e es ih =>
    obtain ⟨h1, h2, -, -⟩ := emitFrom_frame I D p w e
    have := ih (emitFrom I D p w e) (by rw [h2, h1, hc]) (by rw [h1]; exact hp)
    simp only [List.foldl_cons]
    rw [this, emitFrom_emitted_other I D p w e hc hp]

/-- What forwarding a command `c` to the bound handler does to the world. -/
theorem dispatch_frame (c : HandlerCall) (act : Activity H) (w : World H) :
    (handlerRuns I D w.d.handler act (recordCall w.d.handler c w)).d = w.d ∧
    (handlerRuns I D w.d.handler act (recordCall w.d.handler c w)).connections
      = w.connections ∧
    (handlerRuns I D w.d.handler act (recordCall w.d.handler c w)).heap
      = Function.update w.heap w.d.handler act.final ∧
    (handlerRuns I D w.d.handler act (recordCall w.d.handler c w)).calls
      = w.calls ++ [(w.d.handler, c)] := by
  obtain ⟨h1, h2, h3, h4⟩ := handlerRuns_frame I D w.d.handler act (recordCall w.d.handler c w)
  exact ⟨h1, h2, h3, h4⟩

theorem dispatch_emitted (c : HandlerCall) (act : Activity H) (w : World H)
    (hc : w.connections = connectAll w.d.handler) :
    (handlerRuns I D w.d.handler act (recordCall w.d.handler c w)).emitted
      = w.emitted ++ act.emissions.map (mirror I D) :=
  handlerRuns_emitted I D act (recordCall w.d.handler c w) hc

theorem hold_frame (b : Bool) (w : World H) :
    (hold I D b w).1.d = w.d ∧ (hold I D b w).1.connections = w.connections ∧
    (hold I D b w).1.calls = w.calls ++ [(w.d.handler, HandlerCall.hold b)] :=
  ⟨(dispatch_frame I D _ _ w).1, (dispatch_frame I D _ _ w).2.1,
    (dispatch_frame I D _ _ w).2.2.2⟩

theorem hold_emitted (b : Bool) (w : World H) (hc : w.connections = connectAll w.d.handler) :
    (hold I D b w).1.emitted
      = w.emitted ++ (I.hold b (w.heap w.d.handler)).emissions.map (mirror I D) :=
  dispatch_emitted I D (HandlerCall.hold b) (I.hold b (w.heap w.d.handler)) w hc

theorem step_frame (w : World H) (op : Op H) :
    (step I D w op).d = w.d ∧ (step I D w op).connections = w.connections := by
  cases op with
  | answer => exact ⟨(dispatch_frame I D _ _ w).1, (dispatch_frame I D _ _ w).2.1⟩
  | hangup => exact ⟨(dispatch_frame I D _ _ w).1, (dispatch_frame I D _ _ w).2.1⟩
  | hold b => exact ⟨(dispatch_frame I D _ _ w).1, (dispatch_frame I D _ _ w).2.1⟩
  | deflect t => exact ⟨(dispatch_frame I D _ _ w).1, (dispatch_frame I D _ _ w).2.1⟩
  | sendDtmf t => exact ⟨(dispatch_frame I D _ _ w).1, (dispatch_frame I D _ _ w).2.1⟩
  | getProperties => exact ⟨rfl, rfl⟩
  | onStatusChanged => exact ⟨rfl, rfl⟩
  | get g => exact ⟨rfl, rfl⟩
  | handlerActivity p act =>
    exact ⟨(handlerRuns_frame I D p act w).1, (handlerRuns_frame I D p act w).2.1⟩

theorem run_frame (w : World H) (ops : List (Op H)) :
    (run I D w ops).d = w.d ∧ (run I D w ops).connections = w.connections := by
  induction ops generalizing w with
  | nil => exact ⟨rfl, rfl⟩
  | cons op ops ih =>
    obtain ⟨h1, h2⟩ := step_frame I D w op
    obtain ⟨k1, k2⟩ := ih (step I D w op)
    exact ⟨k1.trans h1, k2.trans h2⟩

/-- The binding invariant of every reachable world. -/
theorem adapterAfter_bound (q p : Nat) (heap : Nat → H) (ops : List (Op H)) :
    (adapterAfter I D q p heap ops).d = { q_ptr := q, handler := p } ∧
    (adapterAfter I D q p heap ops).connections = connectAll p := by
  obtain ⟨h1, h2⟩ := run_frame I D (VoiceCallHandlerDBusAdapter.new q p heap) ops
  exact ⟨h1, h2⟩

theorem adapterAfter_handler (q p : Nat) (heap : Nat → H) (ops : List (Op H)) :
    (adapterAfter I D q p heap ops).d.handler = p := by
  rw [(adapterAfter_bound I D q p heap ops).1]

theorem adapterAfter_connections (q p : Nat) (heap : Nat → H) (ops : List (Op H)) :
    (adapterAfter I D q p heap ops).connections
      = connectAll (adapterAfter I D q p heap ops).d.handler := by
  rw [adapterAfter_handler, (adapterAfter_bound I D q p heap ops).2]

/-- A method of the adapter leaves every handler other than the bound one untouched. -/
theorem step_heap_other (w : World H) (op : Op H) (hop : op.isAdapterMethod = true)
    (a : Nat) (ha : a ≠ w.d.handler) : (step I D w op).heap a = w.heap a := by
  cases op with
  | answer => exact (dispatch_frame I D _ _ w).2.2.1 ▸ Function.update_noteq ha _ _
  | hangup => exact (dispatch_frame I D _ _ w).2.2.1 ▸ Function.update_noteq ha _ _
  | hold b => exact (dispatch_frame I D _ _ w).2.2.1 ▸ Function.update_noteq ha _ _
  | deflect t => exact (dispatch_frame I D _ _ w).2.2.1 ▸ Function.update_noteq ha _ _
  | sendDtmf t => exact (dispatch_frame I D _ _ w).2.2.1 ▸ Function.update_noteq ha _ _
  | getProperties => rfl
  | onStatusChanged => rfl
  | get g => rfl
  | handlerActivity p act => simp [Op.isAdapterMethod] at hop

/-- One operation adds calls only on the bound handler. -/
theorem step_calls (w : World H) (op : Op H) :
    ∃ cs : List HandlerCall,
      (step I D w op).calls = w.calls ++ cs.map (fun c => (w.d.handler, c)) := by
  cases op with
  | answer => exact ⟨[.answer], (dispatch_frame I D _ _ w).2.2.2⟩
  | hangup => exact ⟨[.hangup], (dispatch_frame I D _ _ w).2.2.2⟩
  | hold b => exact ⟨[.hold b], (dispatch_frame I D _ _ w).2.2.2⟩
  | deflect t => exact ⟨[.deflect t], (dispatch_frame I D _ _ w).2.2.2⟩
  | sendDtmf t => exact ⟨[.sendDtmf t], (dispatch_frame I D _ _ w).2.2.2⟩
  | getProperties => exact ⟨[], by simp [step, getProperties]⟩
  | onStatusChanged => exact ⟨[], by simp [step, onStatusChanged]⟩
  | get g => exact ⟨[], by simp [step]⟩
  | handlerActivity p act => exact ⟨[], by simp [step, (handlerRuns_frame I D p act w).2.2.2]⟩

theorem run_calls (w : World H) (ops : List (Op H)) (p : Nat) (hp : w.d.handler = p)
    (hw : ∀ c ∈ w.calls, c.1 = p) : ∀ c ∈ (run I D w ops).calls, c.1 = p := by
  induction ops generalizing w with
  | nil => exact hw
  | cons op ops ih =>
    refine ih (step I D w op) ((step_frame I D w op).1 ▸ hp) ?_
    obtain ⟨cs, hcs⟩ := step_calls I D w op
    intro c hc
    rw [hcs, List.mem_append] at hc
    rcases hc with hc | hc
    · exact hw c hc
    · obtain ⟨x, -, rfl⟩ := List.mem_map.mp hc
      exact hp

theorem mirror_name (e : HandlerSignal × H) : (mirror I D e).name = e.1.name := by
  obtain ⟨s, h⟩ := e
  cases s <;> rfl

theorem mirror_args (e : HandlerSignal × H) (hn : e.1.name ≠ .statusChanged) :
    (mirror I D e).args = e.1.args := by
  obtain ⟨s, h⟩ := e
  cases s <;> first | rfl | exact absurd rfl hn

theorem mirror_filter (es : List (HandlerSignal × H)) (n : SignalName)
    (hn : n ≠ .statusChanged) :
    ((es.map (mirror I D)).filter (fun a => a.name = n)).map (fun a => (a.name, a.args))
      = ((es.map Prod.fst).filter (fun s => s.name = n)).map (fun s => (s.name, s.args)) := by
  induction es with
  | nil => rfl
  | cons e es ih =>
    simp only [List.map_cons, List.filter_cons, mirror_name]
    by_cases h : e.1.name = n
    · have hne : e.1.name ≠ .statusChanged := h ▸ hn
      simp only [h, decide_True, if_true, List.map_cons, ih]
      rw [mirror_args I D e hne, mirror_name, h]
    · simp only [h, decide_False, Bool.false_eq_true, if_false, ih]

end Frame

/-! ## Commands: `answer`, `sendDtmf`, `deflect` -/

section Commands
variable {H : Type} (I : HandlerIface H) (D : Decls)

/-- C1, counterexample: on an active outgoing call (status neither Dialing nor Alerting,
`isIncoming` false) `answer()` does not report a failed result; it returns `true` and the
request is passed to the handler. -/
theorem answer_accepted_on_active_outgoing :
    CallSession.iface.status
        ((adapterFor activeOutgoing).heap (adapterFor activeOutgoing).d.handler) = .Active ∧
    isIncoming CallSession.iface (adapterFor activeOutgoing) = false ∧
    (answer CallSession.iface exampleDecls (adapterFor activeOutgoing)).2 = true ∧
    (answer CallSession.iface exampleDecls (adapterFor activeOutgoing)).1.calls
      = [(2, HandlerCall.answer)] := by
  decide

/-- C1, as amended: for every session state, whatever the status and `isIncoming` are,
`answer()` passes exactly one answer request to the bound handler and returns `true`; the
handler's state afterwards is the one the handler's own `answer()` leaves, the adapter
changes nothing itself. -/
theorem answer_forwards_and_accepts (w : World H) :
    (answer I D w).2 = true ∧
    (answer I D w).1.calls = w.calls ++ [(w.d.handler, HandlerCall.answer)] ∧
    (answer I D w).1.heap
      = Function.update w.heap w.d.handler (I.answer (w.heap w.d.handler)).final :=
  ⟨rfl, (dispatch_frame I D _ _ w).2.2.2, (dispatch_frame I D _ _ w).2.2.1⟩

/-- C2, counterexample: the empty tone string and `"xyz"` are both invalid by the tone
alphabet of the spec, yet `sendDtmf` dispatches each of them to the handler. -/
theorem sendDtmf_dispatches_invalid_tones :
    specValidTones "" = false ∧ specValidTones "xyz" = false ∧
    (sendDtmf CallSession.iface exampleDecls "" (adapterFor activeOutgoing)).1.calls
      = [(2, HandlerCall.sendDtmf "")] ∧
    (sendDtmf CallSession.iface exampleDecls "xyz" (adapterFor activeOutgoing)).1.calls
      = [(2, HandlerCall.sendDtmf "xyz")] := by
  decide

/-- C2, as amended: for every tone string, valid or not, `sendDtmf(tones)` passes exactly one
request carrying the unchanged string to the bound handler and returns no result (its
return type is `void`). -/
theorem sendDtmf_forwards_unchecked (tones : String) (w : World H) :
    (sendDtmf I D tones w).2 = () ∧
    (sendDtmf I D tones w).1.calls = w.calls ++ [(w.d.handler, HandlerCall.sendDtmf tones)] ∧
    (sendDtmf I D tones w).1.heap
      = Function.update w.heap w.d.handler (I.sendDtmf tones (w.heap w.d.handler)).final :=
  ⟨rfl, (dispatch_frame I D _ _ w).2.2.2, (dispatch_frame I D _ _ w).2.2.1⟩

/-- C3, counterexample: `deflect("")` on a ringing incoming call returns `true` and passes the
empty target on, and `deflect("5550100")` on an active outgoing call returns `true`. -/
theorem deflect_accepts_empty_target :
    (deflect CallSession.iface exampleDecls "" (adapterFor alertingIncoming)).2 = true ∧
    (deflect CallSession.iface exampleDecls "" (adapterFor alertingIncoming)).1.calls
      = [(2, HandlerCall.deflect "")] ∧
    CallSession.iface.status
        ((adapterFor activeOutgoing).heap (adapterFor activeOutgoing).d.handler) = .Active ∧
    isIncoming CallSession.iface (adapterFor activeOutgoing) = false ∧
    (deflect CallSession.iface exampleDecls "5550100" (adapterFor activeOutgoing)).2 = true := by
  decide

/-- C3, as amended: for every session state and every target, empty or not,
`deflect(target)` passes exactly one deflect request carrying the unchanged target to the
bound handler and returns `true`. -/
theorem deflect_forwards_and_accepts (target : String) (w : World H) :
    (deflect I D target w).2 = true ∧
    (deflect I D target w).1.calls = w.calls ++ [(w.d.handler, HandlerCall.deflect target)] ∧
    (deflect I D target w).1.heap
      = Function.update w.heap w.d.handler (I.deflect target (w.heap w.d.handler)).final :=
  ⟨rfl, (dispatch_frame I D _ _ w).2.2.2, (dispatch_frame I D _ _ w).2.2.1⟩

end Commands

/-! ## `getProperties` -/

section Properties
variable {H : Type} (I : HandlerIface H) (D : Decls)

/-- The map built by `getProperties`, written out in key order. -/
theorem getProperties_eq (w : World H) :
    (getProperties I D w).2
      = [("duration", .int (duration I w)),
         ("handlerId", .string (handlerId I w)),
         ("isEmergency", .bool (isEmergency I w)),
         ("isForwarded", .bool (isForwarded I w)),
         ("isIncoming", .bool (isIncoming I w)),
         ("isMultiparty", .bool (isMultiparty I w)),
         ("lineId", .string (lineId I w)),
         ("providerId", .string (providerId I w)),
         ("startedAt", .longLong (D.toMSecsSinceEpoch (startedAt I w))),
         ("status", .int (status I D w)),
         ("statusText", .string (statusText I w))] := by
  rfl

/-- C4: for every handler state `getProperties()` returns a map with exactly the eleven keys
handlerId, providerId, status, statusText, lineId, startedAt, duration, isIncoming,
isEmergency, isMultiparty, isForwarded; each value is the value of the adapter's getter of
that name, `status` being the integer value of the handler's status and `startedAt` the
handler's `startedAt` converted to milliseconds since the epoch. -/
theorem getProperties_snapshot (w : World H) :
    (getProperties I D w).2.keys
      = ["duration", "handlerId", "isEmergency", "isForwarded", "isIncoming", "isMultiparty",
         "lineId", "providerId", "startedAt", "status", "statusText"] ∧
    (getProperties I D w).2.keys.length = 11 ∧
    (∀ k, k ∈ (getProperties I D w).2.keys ↔
      k ∈ ["handlerId", "providerId", "status", "statusText", "lineId", "startedAt",
           "duration", "isIncoming", "isEmergency", "isMultiparty", "isForwarded"]) ∧
    (getProperties I D w).2.value "handlerId" = some (.string (handlerId I w)) ∧
    (getProperties I D w).2.value "providerId" = some (.string (providerId I w)) ∧
    (getProperties I D w).2.value "status" = some (.int (status I D w)) ∧
    status I D w = D.statusToInt (I.status (w.heap w.d.handler)) ∧
    (getProperties I D w).2.value "statusText" = some (.string (statusText I w)) ∧
    (getProperties I D w).2.value "lineId" = some (.string (lineId I w)) ∧
    (getProperties I D w).2.value "startedAt"
      = some (.longLong (D.toMSecsSinceEpoch (I.startedAt (w.heap w.d.handler)))) ∧
    (getProperties I D w).2.value "duration" = some (.int (duration I w)) ∧
    (getProperties I D w).2.value "isIncoming" = some (.bool (isIncoming I w)) ∧
    (getProperties I D w).2.value "isEmergency" = some (.bool (isEmergency I w)) ∧
    (getProperties I D w).2.value "isMultiparty" = some (.bool (isMultiparty I w)) ∧
    (getProperties I D w).2.value "isForwarded" = some (.bool (isForwarded I w)) := by
  have hm := getProperties_eq I D w
  have hk : (getProperties I D w).2.keys
      = ["duration", "handlerId", "isEmergency", "isForwarded", "isIncoming", "isMultiparty",
         "lineId", "providerId", "startedAt", "status", "statusText"] := by
    rw [hm]; rfl
  refine ⟨hk, by rw [hk]; rfl, ?_, ?_, ?_, ?_, rfl, ?_, ?_, ?_, ?_, ?_, ?_, ?_, ?_⟩
  · intro k
    rw [hk]
    simp only [List.mem_cons, List.mem_singleton, List.not_mem_nil, or_false]
    constructor <;> rintro (h | h | h | h | h | h | h | h | h | h | h) <;> simp [h]
  all_goals (rw [hm]; rfl)

/-- C9: `getProperties()` is a pure read: the world after the call is the world before it
(the handler objects, the log of commands passed to handlers and the log of emitted signals
included), and a second call made right after the first returns an equal map. -/
theorem getProperties_pure (w : World H) :
    (getProperties I D w).1 = w ∧
    (getProperties I D w).1.calls = w.calls ∧
    (getProperties I D w).1.emitted = w.emitted ∧
    (getProperties I D w).1.heap = w.heap ∧
    (getProperties I D (getProperties I D w).1).2 = (getProperties I D w).2 :=
  ⟨rfl, rfl, rfl, rfl, rfl⟩

end Properties

/-! ## Signal relay -/

section Relay
variable {H : Type} (I : HandlerIface H) (D : Decls)

/-- C5, counterexample: a handler whose `status()` is Held emits `statusChanged(Active)`;
the adapter emits one `statusChanged` carrying Held and "Held", not the reported Active. -/
theorem statusChanged_ignores_reported_status :
    (emitFrom CallSession.iface exampleDecls 2 (adapterFor heldCall)
        (HandlerSignal.statusChanged .Active, heldCall)).emitted
      = [AdapterSignal.statusChanged 3 "Held"] ∧
    AdapterSignal.statusChanged 3 "Held"
      ≠ AdapterSignal.statusChanged (exampleDecls.statusToInt .Active) "Active" := by
  decide

/-- C5, as amended: for every status notification of the bound handler the adapter emits
exactly one `statusChanged(status, statusText)` event, carrying the integer value of the
handler's `status()` and the handler's `statusText()` as read when the notification is
delivered (the notification's own argument is not used); when the handler's `status()` is
the reported status `s`, the event carries the integer value of `s`. -/
theorem statusChanged_relays_current_status (q p : Nat) (heap : Nat → H) (ops : List (Op H))
    (s : VoiceCallStatus) (h : H) :
    (emitFrom I D p (adapterAfter I D q p heap ops) (HandlerSignal.statusChanged s, h)).emitted
      = (adapterAfter I D q p heap ops).emitted
          ++ [AdapterSignal.statusChanged (D.statusToInt (I.status h)) (I.statusText h)] ∧
    (I.status h = s →
      (emitFrom I D p (adapterAfter I D q p heap ops) (HandlerSignal.statusChanged s, h)).emitted
        = (adapterAfter I D q p heap ops).emitted
            ++ [AdapterSignal.statusChanged (D.statusToInt s) (I.statusText h)]) := by
  have hp := adapterAfter_handler I D q p heap ops
  have key := emitFrom_emitted I D (adapterAfter I D q p heap ops)
    (HandlerSignal.statusChanged s, h) (adapterAfter_connections I D q p heap ops)
  rw [hp] at key
  refine ⟨key, fun hs => ?_⟩
  rw [key, ← hs]
  rfl

/-- C5, witness: a ringing incoming call is answered, the handler then reports Active while
being Active: the adapter emits `statusChanged(2, "Active")`. -/
theorem statusChanged_relays_current_status_witness :
    (emitFrom CallSession.iface exampleDecls 2
        (adapterAfter CallSession.iface exampleDecls 1 2 (fun _ => alertingIncoming) [Op.answer])
        (HandlerSignal.statusChanged .Active, answeredCall)).emitted
      = (adapterAfter CallSession.iface exampleDecls 1 2 (fun _ => alertingIncoming)
            [Op.answer]).emitted
          ++ [AdapterSignal.statusChanged (exampleDecls.statusToInt .Active)
                (CallSession.iface.statusText answeredCall)] :=
  (statusChanged_relays_current_status CallSession.iface exampleDecls 1 2
    (fun _ => alertingIncoming) [Op.answer] .Active answeredCall).2 (by decide)

/-- C6: for each of the six attributes lineId, startedAt, duration, emergency, multiparty and
forwarded, and every sequence of notifications of the bound handler, the events of that
name newly emitted by the adapter are, in the same order, the handler's notifications of
that name, one for one and with the same argument; when the handler emits nothing the
adapter emits nothing. -/
theorem attribute_signals_relayed (q p : Nat) (heap : Nat → H) (ops : List (Op H))
    (w : World H) (hw : w = adapterAfter I D q p heap ops) (act : Activity H) :
    (∀ n : SignalName, n ≠ .statusChanged →
      ((((handlerRuns I D p act w).emitted.drop w.emitted.length).filter
          (fun a => a.name = n)).map (fun a => (a.name, a.args))
        = ((act.emissions.map Prod.fst).filter (fun s => s.name = n)).map
            (fun s => (s.name, s.args)))) ∧
    ((handlerRuns I D p act w).emitted.take w.emitted.length = w.emitted) ∧
    ((handlerRuns I D p act w).emitted.length = w.emitted.length + act.emissions.length) ∧
    (act.emissions = [] → (handlerRuns I D p act w).emitted = w.emitted) := by
  subst hw
  have hp := adapterAfter_handler I D q p heap ops
  have key := handlerRuns_emitted I D act (adapterAfter I D q p heap ops)
    (adapterAfter_connections I D q p heap ops)
  rw [hp] at key
  refine ⟨fun n hn => ?_, ?_, ?_, fun he => ?_⟩
  · rw [key, List.drop_left]
    exact mirror_filter I D act.emissions n hn
  · rw [key, List.take_left]
  · rw [key, List.length_append, List.length_map]
  · rw [key, he]
    simp

/-- C6, witness: after a line id change and a multiparty change reported by the handler, the
adapter's new `lineIdChanged` events are exactly the one reported. -/
theorem attribute_signals_relayed_witness :
    ((((handlerRuns CallSession.iface exampleDecls 2
          { emissions := [(HandlerSignal.lineIdChanged "+15550100", activeOutgoing),
                          (HandlerSignal.multipartyChanged true, activeOutgoing)],
            final := activeOutgoing }
          (adapterFor activeOutgoing)).emitted.drop
            (adapterFor activeOutgoing).emitted.length).filter
        (fun a => a.name = SignalName.lineIdChanged)).map (fun a => (a.name, a.args)))
      = [(SignalName.lineIdChanged, [Arg.str "+15550100"])] :=
  ((attribute_signals_relayed CallSession.iface exampleDecls 1 2 (fun _ => activeOutgoing) []
      (adapterFor activeOutgoing) rfl
      { emissions := [(HandlerSignal.lineIdChanged "+15550100", activeOutgoing),
                      (HandlerSignal.multipartyChanged true, activeOutgoing)],
        final := activeOutgoing }).1 SignalName.lineIdChanged (by decide)).trans (by decide)

/-- C7: for every session that is Active or Held and every boolean `b`, `hold(b)` passes
exactly one hold request carrying `b` to the bound handler and returns `true`; a second
`hold(true)` is accepted again and passes a second request; the events the adapter emits
during either call are exactly the relays of what the handler itself emits during that
call, so without a status notification from the handler no `statusChanged` is emitted. -/
theorem hold_forwards_once (q p : Nat) (heap : Nat → H) (ops : List (Op H)) (b : Bool)
    (w : World H) (hw : w = adapterAfter I D q p heap ops)
    (hs : I.status (w.heap p) = .Active ∨ I.status (w.heap p) = .Held) :
    (hold I D b w).2 = true ∧
    (hold I D b w).1.calls = w.calls ++ [(p, HandlerCall.hold b)] ∧
    (hold I D b w).1.emitted = w.emitted ++ (I.hold b (w.heap p)).emissions.map (mirror I D) ∧
    ((∀ e ∈ (I.hold b (w.heap p)).emissions, e.1.name ≠ SignalName.statusChanged) →
      ∀ a ∈ (hold I D b w).1.emitted.drop w.emitted.length,
        a.name ≠ SignalName.statusChanged) ∧
    (hold I D true (hold I D true w).1).2 = true ∧
    (hold I D true (hold I D true w).1).1.calls
      = w.calls ++ [(p, HandlerCall.hold true), (p, HandlerCall.hold true)] ∧
    (hold I D true (hold I D true w).1).1.emitted
      = (hold I D true w).1.emitted
          ++ (I.hold true ((hold I D true w).1.heap p)).emissions.map (mirror I D) ∧
    ((∀ e ∈ (I.hold true ((hold I D true w).1.heap p)).emissions,
        e.1.name ≠ SignalName.statusChanged) →
      ∀ a ∈ (hold I D true (hold I D true w).1).1.emitted.drop
              (hold I D true w).1.emitted.length,
        a.name ≠ SignalName.statusChanged) := by
  have _ := hs
  have hp : w.d.handler = p := hw ▸ adapterAfter_handler I D q p heap ops
  have hc : w.connections = connectAll w.d.handler :=
    hw ▸ adapterAfter_connections I D q p heap ops
  have e1 : ∀ c : Bool, (hold I D c w).1.emitted
      = w.emitted ++ (I.hold c (w.heap p)).emissions.map (mirror I D) := by
    intro c
    have := hold_emitted I D c w hc
    rw [hp] at this
    exact this
  have c1 : ∀ c : Bool, (hold I D c w).1.calls = w.calls ++ [(p, HandlerCall.hold c)] := by
    intro c
    have := (hold_frame I D c w).2.2
    rw [hp] at this
    exact this
  have hp1 : (hold I D true w).1.d.handler = p := by
    rw [(hold_frame I D true w).1, hp]
  have hc1 : (hold I D true w).1.connections = connectAll (hold I D true w).1.d.handler := by
    rw [(hold_frame I D true w).2.1, hp1, hc, hp]
  have e2 : (hold I D true (hold I D true w).1).1.emitted
      = (hold I D true w).1.emitted
          ++ (I.hold true ((hold I D true w).1.heap p)).emissions.map (mirror I D) := by
    have := hold_emitted I D true (hold I D true w).1 hc1
    rw [hp1] at this
    exact this
  have c2 : (hold I D true (hold I D true w).1).1.calls
      = (hold I D true w).1.calls ++ [(p, HandlerCall.hold true)] := by
    have := (hold_frame I D true (hold I D true w).1).2.2
    rw [hp1] at this
    exact this
  refine ⟨rfl, c1 b, e1 b, fun hno a ha => ?_, rfl, ?_, e2, fun hno a ha => ?_⟩
  · rw [e1 b, List.drop_left] at ha
    obtain ⟨e, he, rfl⟩ := List.mem_map.mp ha
    rw [mirror_name]
    exact hno e he
  · rw [c2, c1 true]
    simp
  · rw [e2, List.drop_left] at ha
    obtain ⟨e, he, rfl⟩ := List.mem_map.mp ha
    rw [mirror_name]
    exact hno e he

/-- C7, witness: `hold(true)` on an active call. -/
theorem hold_forwards_once_witness :
    (hold CallSession.iface exampleDecls true (adapterFor activeOutgoing)).2 = true ∧
    (hold CallSession.iface exampleDecls true (adapterFor activeOutgoing)).1.calls
      = (adapterFor activeOutgoing).calls ++ [(2, HandlerCall.hold true)] :=
  have h := hold_forwards_once CallSession.iface exampleDecls 1 2 (fun _ => activeOutgoing) []
    true (adapterFor activeOutgoing) rfl (Or.inl (by decide))
  ⟨h.1, h.2.1⟩

end Relay

/-! ## Getters and the binding to the handler -/

section Binding
variable {H : Type} (I : HandlerIface H) (D : Decls)

/-- C8: nothing is cached. In every reachable world each getter of the adapter returns the
value the bound handler has at that moment (`status` as an integer), and once the handler
has run and ended in state `act.final`, each getter returns the value of `act.final`. -/
theorem getters_read_through (q p : Nat) (heap : Nat → H) (ops : List (Op H))
    (act : Activity H) :
    (statusText I (adapterAfter I D q p heap ops)
        = I.statusText ((adapterAfter I D q p heap ops).heap p) ∧
     providerId I (adapterAfter I D q p heap ops)
        = I.providerId ((adapterAfter I D q p heap ops).heap p) ∧
     handlerId I (adapterAfter I D q p heap ops)
        = I.handlerId ((adapterAfter I D q p heap ops).heap p) ∧
     lineId I (adapterAfter I D q p heap ops)
        = I.lineId ((adapterAfter I D q p heap ops).heap p) ∧
     startedAt I (adapterAfter I D q p heap ops)
        = I.startedAt ((adapterAfter I D q p heap ops).heap p) ∧
     duration I (adapterAfter I D q p heap ops)
        = I.duration ((adapterAfter I D q p heap ops).heap p) ∧
     isIncoming I (adapterAfter I D q p heap ops)
        = I.isIncoming ((adapterAfter I D q p heap ops).heap p) ∧
     isMultiparty I (adapterAfter I D q p heap ops)
        = I.isMultiparty ((adapterAfter I D q p heap ops).heap p) ∧
     isForwarded I (adapterAfter I D q p heap ops)
        = I.isForwarded ((adapterAfter I D q p heap ops).heap p) ∧
     isEmergency I (adapterAfter I D q p heap ops)
        = I.isEmergency ((adapterAfter I D q p heap ops).heap p) ∧
     status I D (adapterAfter I D q p heap ops)
        = D.statusToInt (I.status ((adapterAfter I D q p heap ops).heap p))) ∧
    (statusText I (adapterAfter I D q p heap (ops ++ [Op.handlerActivity p act]))
        = I.statusText act.final ∧
     providerId I (adapterAfter I D q p heap (ops ++ [Op.handlerActivity p act]))
        = I.providerId act.final ∧
     handlerId I (adapterAfter I D q p heap (ops ++ [Op.handlerActivity p act]))
        = I.handlerId act.final ∧
     lineId I (adapterAfter I D q p heap (ops ++ [Op.handlerActivity p act]))
        = I.lineId act.final ∧
     startedAt I (adapterAfter I D q p heap (ops ++ [Op.handlerActivity p act]))
        = I.startedAt act.final ∧
     duration I (adapterAfter I D q p heap (ops ++ [Op.handlerActivity p act]))
        = I.duration act.final ∧
     isIncoming I (adapterAfter I D q p heap (ops ++ [Op.handlerActivity p act]))
        = I.isIncoming act.final ∧
     isMultiparty I (adapterAfter I D q p heap (ops ++ [Op.handlerActivity p act]))
        = I.isMultiparty act.final ∧
     isForwarded I (adapterAfter I D q p heap (ops ++ [Op.handlerActivity p act]))
        = I.isForwarded act.final ∧
     isEmergency I (adapterAfter I D q p heap (ops ++ [Op.handlerActivity p act]))
        = I.isEmergency act.final ∧
     status I D (adapterAfter I D q p heap (ops ++ [Op.handlerActivity p act]))
        = D.statusToInt (I.status act.final)) := by
  have hp := adapterAfter_handler I D q p heap ops
  have hp2 := adapterAfter_handler I D q p heap (ops ++ [Op.handlerActivity p act])
  have hh : (adapterAfter I D q p heap (ops ++ [Op.handlerActivity p act])).heap p
      = act.final := by
    have : adapterAfter I D q p heap (ops ++ [Op.handlerActivity p act])
        = handlerRuns I D p act (adapterAfter I D q p heap ops) := by
      simp [adapterAfter, run, step]
    rw [this, (handlerRuns_frame I D p act _).2.2.1]
    simp
  refine ⟨?_, ?_⟩
  · simp only [statusText, providerId, handlerId, lineId, startedAt, duration, isIncoming,
      isMultiparty, isForwarded, isEmergency, status, hp, and_self]
  · simp only [statusText, providerId, handlerId, lineId, startedAt, duration, isIncoming,
      isMultiparty, isForwarded, isEmergency, status, hp2, hh, and_self]

/-- C10: an adapter constructed for the handler at `p` stays bound to it. After any sequence
of operations the private object still holds `q` and `p`, the connections are the seven
made by the constructor, all on sender `p`, and every command ever passed on went to `p`.
No method of the adapter changes the private object or the connections, or touches a
handler other than `p`, and signals of other handlers are not relayed. -/
theorem binding_is_fixed (q p : Nat) (heap : Nat → H) (ops : List (Op H)) :
    (VoiceCallHandlerDBusAdapter.new q p heap).d.handler = p ∧
    (adapterAfter I D q p heap ops).d = { q_ptr := q, handler := p } ∧
    (adapterAfter I D q p heap ops).connections = connectAll p ∧
    (∀ c ∈ (adapterAfter I D q p heap ops).connections, c.sender = p) ∧
    (∀ c ∈ (adapterAfter I D q p heap ops).calls, c.1 = p) ∧
    (∀ op : Op H, op.isAdapterMethod = true →
      (step I D (adapterAfter I D q p heap ops) op).d = (adapterAfter I D q p heap ops).d ∧
      (step I D (adapterAfter I D q p heap ops) op).connections
        = (adapterAfter I D q p heap ops).connections ∧
      ∀ a, a ≠ p →
        (step I D (adapterAfter I D q p heap ops) op).heap a
          = (adapterAfter I D q p heap ops).heap a) ∧
    (∀ (a : Nat) (act : Activity H), a ≠ p →
      (handlerRuns I D a act (adapterAfter I D q p heap ops)).emitted
        = (adapterAfter I D q p heap ops).emitted) := by
  have hb := adapterAfter_bound I D q p heap ops
  have hp := adapterAfter_handler I D q p heap ops
  refine ⟨rfl, hb.1, hb.2, ?_, ?_, ?_, ?_⟩
  · intro c hc
    rw [hb.2] at hc
    simp only [connectAll, List.mem_cons, List.mem_singleton, List.not_mem_nil, or_false] at hc
    rcases hc with h | h | h | h | h | h | h <;> rw [h]
  · exact run_calls I D _ ops p rfl (by intro c hc; cases hc)
  · intro op hop
    refine ⟨(step_frame I D _ op).1, (step_frame I D _ op).2, fun a ha => ?_⟩
    exact step_heap_other I D _ op hop a (by rw [hp]; exact ha)
  · intro a act ha
    exact handlerRuns_emitted_other I D a act _ (adapterAfter_connections I D q p heap ops)
      (by rw [hp]; exact ha)

/-- C10, witness: after `answer`, a getter call and `hold(true)`, the handler at address 3 is
untouched by a further `hangup`. -/
theorem binding_is_fixed_witness :
    (step CallSession.iface exampleDecls
        (adapterAfter CallSession.iface exampleDecls 1 2 (fun _ => alertingIncoming)
          [Op.answer, Op.get Getter.status, Op.hold true]) Op.hangup).heap 3
      = (adapterAfter CallSession.iface exampleDecls 1 2 (fun _ => alertingIncoming)
          [Op.answer, Op.get Getter.status, Op.hold true]).heap 3 :=
  ((binding_is_fixed CallSession.iface exampleDecls 1 2 (fun _ => alertingIncoming)
      [Op.answer, Op.get Getter.status, Op.hold true]).2.2.2.2.2.1 Op.hangup rfl).2.2 3
    (by decide)

end Binding

end VoiceCall
